import Mathlib

/-!
Verification of the XML / debug serializers of `src/plugins/xmltool/stream.c`
(functions `keyToStream`, `keyToStreamBasename`, `ksToStream`, `keyOutput`,
`ksOutput`).  The output written to the `FILE *` stream is modelled as a
`List Char` (one `Char` per byte written); the `ssize_t` byte count returned
by the XML functions is the length of that list.  Bytes of C strings are
modelled as `Char`s; positions past the end of a stored string read as the
terminating NUL (`Char.ofNat 0`).
-/

namespace XmlStream

/-- Shorthand turning a string literal into the list of bytes it denotes. -/
def lit (s : String) : List Char := s.data

/-- Modelled from the spec (section 6): the recognized `KDBStream` format
options are independently combinable bit flags; the exact numeric bit values
live in `kdbtools.h`, which is not part of this file's source, so the option
word is modelled as a record of independent booleans (one per recognized
flag, all clear by default). -/
structure KDBStream where
  numbers : Bool := false
  condensed : Bool := false
  fullname : Bool := false
  hier : Bool := false
  header : Bool := false
  xmlheaders : Bool := false
  showindices : Bool := false
  showflags : Bool := false
  showmeta : Bool := false
  keyValue : Bool := false
  keyMeta : Bool := false

/-- Modelled from the spec (section 3): the `Key` struct itself lives in the
core library headers, not in this file's source.  `name` is the stored key
name (`key->key`, terminator not included), `resolvedName` the expanded form
produced by `keyGetName` under the full-name option, `data` the stored value
(`key->data`, `none` when `key->data.v` is NULL; for string values the bytes
exclude the terminating marker), `binaryMeta` whether the key carries
`binary` metadata, `comment` the comment (`none` when `keyComment` is NULL),
`needsSync` the needs-synchronization flag. -/
structure Key where
  name : List Char
  resolvedName : List Char
  data : Option (List Char)
  binaryMeta : Bool
  comment : Option (List Char)
  needsSync : Bool

/-- Modelled from the spec: `keyIsString` holds when the key carries no
`binary` metadata. -/
def keyIsString (k : Key) : Bool := !k.binaryMeta

/-- Modelled from the spec: `keyIsBinary` holds when the key carries
`binary` metadata. -/
def keyIsBinary (k : Key) : Bool := k.binaryMeta

/-- Modelled from the spec: the needs-synchronization flag of a key. -/
def keyNeedSync (k : Key) : Bool := k.needsSync

/-- Modelled from the spec: the stored size of a key's value
(`key->dataSize`).  For string values the stored bytes include a
terminating marker, so the stored size is the logical length plus one
(the code at line 231 writes `dataSize - 1` bytes and the comment there
says "must chop ending \\0"); binary values carry their explicit length;
a key without a value has size 0. -/
def dataSize (k : Key) : Nat :=
  match k.data with
  | none => 0
  | some v => if k.binaryMeta then v.length else v.length + 1

/-- The first `n` bytes at a C string, as read by `memcmp`: positions past
the stored characters read as the terminating NUL byte. -/
def cstrTake (s : List Char) (n : Nat) : List Char :=
  (List.range n).map (fun i => s.getD i (Char.ofNat 0))

/-- Lines 269-284 of `stream.c`: the common closing code after the value /
comment branches: optional newline and indentation, the `<comment>` element
wrapped in CDATA when a comment is present, the closing `</key>` tag and the
optional trailing blank line. -/
def keyCloseTail (key : Key) (opts : KDBStream) : List Char :=
  (if opts.condensed then [] else lit ("\n") ++ (if key.comment.isSome then lit ("     ") else [])) ++
  (match key.comment with
   | some c => lit ("<comment><![CDATA[") ++ c ++ lit ("]]></comment>") ++
       (if opts.condensed then [] else lit ("\n"))
   | none => []) ++
  lit ("</key>") ++ (if opts.condensed then [] else lit ("\n\n"))

/-- Lines 184-285 of `stream.c`: everything `keyToStreamBasename` writes
after the opening `<key ...="..."` fragment.  A key with neither value nor
comment self-closes; a present string value of stored size at most 16 with
no embedded newline becomes a `value="..."` attribute (followed by `">\n"`
when a comment must still be written, else self-closing); any other present
value becomes a `<value>` element whose payload is CDATA-wrapped for string
kind (the `dataSize - 1` written bytes are exactly the logical value) and
empty for binary kind (the unimplemented branch at lines 234-247). -/
def keyBody (key : Key) (opts : KDBStream) : List Char :=
  match key.data with
  | none =>
    match key.comment with
    | some _ => lit (">") ++ (if opts.condensed then [] else lit ("\n")) ++ keyCloseTail key opts
    | none => lit ("/>") ++ (if opts.condensed then [] else lit ("\n\n"))
  | some v =>
    if dataSize key ≤ 16 ∧ keyIsString key = true ∧ '\n' ∉ v then
      (if opts.condensed then lit (" ") else lit ("\n\t")) ++ lit ("value=\"") ++ v ++ lit ("\"") ++
        (match key.comment with
         | some _ => lit (">\n") ++ keyCloseTail key opts
         | none => lit ("/>") ++ (if opts.condensed then [] else lit ("\n")))
    else
      lit (">") ++ (if opts.condensed then [] else lit ("\n\n     ")) ++ lit ("<value>") ++
        (if keyIsString key = true then lit ("<![CDATA[") ++ v ++ lit ("]]>") else []) ++
        lit ("</value>") ++ keyCloseTail key opts

/-- Lines 150-182 of `stream.c`: the opening `<key ...="..."` fragment.
When a parent string is supplied, its first `skip` bytes (`skip` being
`parentSize` when nonzero, else the parent's length) are compared against
the key name; on a match the run of path separators after the matched bytes
is skipped and, if the remaining suffix is nonempty, the element opens as
`<key basename="suffix"`.  Otherwise (`written == 0` in the source) the
element opens as `<key name="..."` with the resolved name under the
full-name option and the raw stored name otherwise. -/
def keyHead (key : Key) (par : Option (List Char)) (parentSize : Nat)
    (opts : KDBStream) : List Char :=
  let base : List Char :=
    match par with
    | none => []
    | some p =>
      let skip := if parentSize ≠ 0 then parentSize else p.length
      if cstrTake p skip = cstrTake key.name skip then
        let rest := (key.name.drop skip).dropWhile (fun c => c == '/')
        if rest ≠ [] then lit ("<key basename=\"") ++ rest ++ lit ("\"") else []
      else []
  if base = [] then
    (if opts.fullname then lit ("<key name=\"") ++ key.resolvedName ++ lit ("\"")
     else lit ("<key name=\"") ++ key.name ++ lit ("\""))
  else base

/-- Lines 150-285 of `stream.c`: `keyToStreamBasename` writes the opening
fragment followed by the body of the element. -/
def keyToStreamBasename (key : Key) (par : Option (List Char)) (parentSize : Nat)
    (opts : KDBStream) : List Char :=
  keyHead key par parentSize opts ++ keyBody key opts

/-- Lines 96-99 of `stream.c`: `keyToStream` delegates to
`keyToStreamBasename` with no parent. -/
def keyToStream (key : Key) (opts : KDBStream) : List Char :=
  keyToStreamBasename key none 0 opts

/-- Modelled from the spec (sections 2-3): `ksDup` takes an
order-preserving shallow snapshot of the keyset; its implementation is not
part of this file's source. -/
def ksDup (ks : List Key) : List Key := ks

/-- Bytes of the decimal rendering of a natural number, as printed by
`fprintf` with `%d` for the (non-negative) sizes involved. -/
def natDec (n : Nat) : List Char := (toString n).data

/-- Modelled from the spec (section 4.2 and glossary):
`ksGetCommonParentName` is not part of this file's source; the spec
describes it as computing the longest shared leading path across all keys of
the set, empty when the set is empty or the keys share no common ancestor
segment.  `underParent cand n` checks that `cand` is `n` itself or a
path-boundary-aligned leading part of `n`. -/
def underParent (cand n : List Char) : Bool :=
  decide (n.take cand.length = cand) &&
    (decide (n.length = cand.length) || decide (n.getD cand.length ' ' = '/'))

/-- Modelled from the spec: drop the last path segment (and its separator)
from a path. -/
def dropLastSeg (s : List Char) : List Char :=
  ((s.reverse.dropWhile (fun c => !(c == '/'))).drop 1).reverse

/-- Modelled from the spec: shorten a candidate parent segment by segment
until it is a shared leading path of every name (fuel-bounded recursion;
the fuel exceeds the number of possible shortenings). -/
def commonParentLoop (names : List (List Char)) : Nat → List Char → List Char
  | 0, _ => []
  | fuel + 1, cand =>
    if cand.isEmpty then []
    else if names.all (fun n => underParent cand n) then cand
    else commonParentLoop names fuel (dropLastSeg cand)

/-- Modelled from the spec: the common parent name of a keyset; empty for
the empty keyset. -/
def ksGetCommonParentName (cks : List Key) : List Char :=
  match cks with
  | [] => []
  | k :: rest => commonParentLoop ((k :: rest).map Key.name) (k.name.length + 1) k.name

/-- Lines 356-373 of `stream.c`: everything written before the root
element's attributes.  The header option selects the XML prolog, the
comment line with the key count of the snapshot (unless condensed) and the
root element with the three namespace / schema attributes (one-line when
condensed); otherwise the root element opens plainly. -/
def ksHeadPart (opts : KDBStream) (n : Nat) : List Char :=
  if opts.header then
    lit ("<?xml version=\"1.0\" encoding=\"UTF-8\"?>") ++
    (if opts.condensed then [] else
      lit ("\n<!-- Generated by Elektra API. Total of ") ++ natDec n ++ lit (" keys. -->\n")) ++
    (if opts.condensed then
      lit ("<keyset xmlns=\"https://www.libelektra.org\" xmlns:xsi=\"http://www.w3.org/2001/XMLSchema-instance\" xsi:schemaLocation=\"https://www.libelektra.org elektra.xsd\"")
     else
      lit ("<keyset xmlns=\"https://www.libelektra.org\"\n\txmlns:xsi=\"http://www.w3.org/2001/XMLSchema-instance\"\n\txsi:schemaLocation=\"https://www.libelektra.org elektra.xsd\"\n"))
  else lit ("<keyset")

/-- Lines 356-415 of `stream.c`: the output `ksToStream` produces from the
snapshot keyset `cks`: the head part above, then — under the hierarchical
option with a nonempty common parent — the `parent` attribute and every key
in basename mode against that parent, else the plainly closed opening tag
and every key in full-name mode.  The root element is always closed by an
unconditional `"</keyset>\n"`. -/
def ksToStreamBody (cks : List Key) (opts : KDBStream) : List Char :=
  ksHeadPart opts cks.length ++
  (if opts.hier then
    (let cp := ksGetCommonParentName cks
     if cp ≠ [] then
       lit ("        parent=\"") ++ cp ++ lit ("\">\n") ++
         (cks.map (fun k => keyToStreamBasename k (some cp) 0 opts)).flatten
     else
       lit (">\n") ++ (cks.map (fun k => keyToStream k opts)).flatten)
   else
     lit (">\n") ++ (cks.map (fun k => keyToStream k opts)).flatten) ++
  lit ("</keyset>\n")

/-- Lines 350-416 of `stream.c`: `ksToStream` duplicates the keyset and
streams the duplicate. -/
def ksToStream (ks : List Key) (opts : KDBStream) : List Char :=
  ksToStreamBody (ksDup ks) opts

/-- Modelled from the spec (section 7): whether the three `elektraMalloc`
calls of `keyOutput` (temporary buffers for the name, value and comment
text) succeed.  Allocation is nondeterministic in the source, so its
outcome is an explicit parameter of the embedding. -/
structure AllocPlan where
  nameAlloc : Bool := true
  valueAlloc : Bool := true
  commentAlloc : Bool := true

/-- Modelled from the spec: `keyGetNameSize` returns the stored size of the
key name, terminator included. -/
def keyGetNameSize (k : Key) : Nat := k.name.length + 1

/-- Modelled from the spec: `keyGetCommentSize` returns the stored size of
the comment text, terminator included (1 when there is no comment). -/
def keyGetCommentSize (k : Key) : Nat :=
  match k.comment with
  | none => 1
  | some c => c.length + 1

/-- Lines 433-501 of `stream.c`: `keyOutput` renders one debug line.  The
result is the returned `int` (`1` on success, `-1` when a needed temporary
buffer allocation fails) paired with the bytes written up to that point.
The name section prints when the name size exceeds 1, the value section
when the show-value option is set and the value size exceeds 1 (`Binary`
label for binary kind, `String` otherwise), the comment section when the
show-meta-gate option is set and the comment size exceeds 1; then the
forced separator, the flag codes (`b` for binary, `s` for string, `s` again
for needs-sync) and the final newline. -/
def keyOutput (k : Key) (opts : KDBStream) (al : AllocPlan) : Int × List Char :=
  let n := keyGetNameSize k
  if n > 1 ∧ al.nameAlloc = false then (-1, [])
  else
    let o1 := if n > 1 then lit ("Name[") ++ natDec n ++ lit ("]: ") ++ k.name ++ lit (" : ") else []
    let s := dataSize k
    if opts.keyValue = true ∧ s > 1 ∧ al.valueAlloc = false then (-1, o1)
    else
      let o2 := o1 ++
        (if opts.keyValue = true ∧ s > 1 then
          (if keyIsBinary k = true then lit ("Binary[") ++ natDec s ++ lit ("]: ") ++ k.data.getD [] ++ lit (" : ")
           else lit ("String[") ++ natDec s ++ lit ("]: ") ++ k.data.getD [] ++ lit (" : "))
         else [])
      let c := keyGetCommentSize k
      if opts.keyMeta = true ∧ c > 1 ∧ al.commentAlloc = false then (-1, o2)
      else
        let o3 := o2 ++
          (if opts.keyMeta = true ∧ c > 1 then
            lit ("Comment[") ++ natDec c ++ lit ("]: ") ++ k.comment.getD [] ++ lit (" : ")
           else [])
        let o4 := o3 ++ (if opts.showmeta then lit (" : ") else [])
        let o5 := o4 ++
          (if opts.showflags then
            (if opts.showmeta = false then lit (" ") else []) ++ lit ("Flags: ") ++
            (if keyIsBinary k = true then lit ("b") else []) ++
            (if keyIsString k = true then lit ("s") else []) ++
            (if keyNeedSync k = true then lit ("s") else [])
           else [])
        (1, o5 ++ lit ("\n"))

/-- Lines 533-544 of `stream.c`: the output `ksOutput` produces from the
snapshot keyset: the optional size header, then per key the optional
`[index] ` position and the `keyOutput` line (the `keyOutput` result code
is discarded).  `als` gives the allocation outcomes for the i-th key. -/
def ksOutputBody (cks : List Key) (opts : KDBStream) (als : Nat → AllocPlan) : List Char :=
  (if opts.header then lit ("Output keyset of size ") ++ natDec cks.length ++ lit ("\n") else []) ++
  (cks.enum.map (fun p =>
    (if opts.showindices then lit ("[") ++ natDec p.1 ++ lit ("] ") else []) ++
    (keyOutput p.2 opts (als p.1)).2)).flatten

/-- Lines 527-548 of `stream.c`: `ksOutput` duplicates the keyset, prints
the duplicate and returns 1. -/
def ksOutput (ks : List Key) (opts : KDBStream) (als : Nat → AllocPlan) : Int × List Char :=
  let cks := ksDup ks
  (1, ksOutputBody cks opts als)

/-- The keyset objects a caller of the set-level formatters can observe:
the input keyset and the defensive snapshot (when one is alive). -/
structure KSStore where
  input : List Key
  snap : Option (List Key)

/-- The `ksDup` call at the start of the set-level formatters: a snapshot
of the input appears; the input itself is untouched. -/
def ksDupSt (st : KSStore) : KSStore := { st with snap := some (ksDup st.input) }

/-- The `ksDel` call at the end of the set-level formatters: the snapshot
is released; the input itself is untouched. -/
def ksDelSt (st : KSStore) : KSStore := { st with snap := none }

/-- `ksToStream` with the keyset objects made explicit: duplicate the
input, stream the duplicate, release the duplicate.  The final component is
the store the caller observes after the call. -/
def ksToStreamSt (ks : List Key) (opts : KDBStream) : List Char × KSStore :=
  let st1 := ksDupSt { input := ks, snap := none }
  (ksToStreamBody (st1.snap.getD []) opts, ksDelSt st1)

/-- `ksOutput` with the keyset objects made explicit, as `ksToStreamSt`. -/
def ksOutputSt (ks : List Key) (opts : KDBStream) (als : Nat → AllocPlan) :
    (Int × List Char) × KSStore :=
  let st1 := ksDupSt { input := ks, snap := none }
  ((1, ksOutputBody (st1.snap.getD []) opts als), ksDelSt st1)

/-- The byte sequence `t` opens the byte sequence `hay`. -/
def beginsWith (hay t : List Char) : Prop := hay.take t.length = t

/-- The byte sequence `t` closes the byte sequence `hay`. -/
def endsWith (hay t : List Char) : Prop := hay.drop (hay.length - t.length) = t

/-- The byte sequence `sub` occurs somewhere inside `hay`. -/
def containsSub (hay sub : List Char) : Bool :=
  (List.range (hay.length + 1)).any (fun i => decide ((hay.drop i).take sub.length = sub))

instance (hay t : List Char) : Decidable (beginsWith hay t) := by
  unfold beginsWith
  infer_instance

instance (hay t : List Char) : Decidable (endsWith hay t) := by
  unfold endsWith
  infer_instance

theorem beginsWith_append (t r : List Char) : beginsWith (t ++ r) t :=
  List.take_left t r

theorem endsWith_append (a t : List Char) : endsWith (a ++ t) t := by
  unfold endsWith
  have h : (a ++ t).length - t.length = a.length := by
    simp [List.length_append]
  rw [h]
  exact List.drop_left a t

theorem endsWith_refl (t : List Char) : endsWith t t := by
  unfold endsWith
  simp

theorem endsWith_prepend (a b t : List Char) (h : endsWith b t) : endsWith (a ++ b) t := by
  unfold endsWith at h ⊢
  have hlen : t.length ≤ b.length := by
    by_contra hlt
    push_neg at hlt
    have h0 : b.length - t.length = 0 := by omega
    rw [h0, List.drop_zero] at h
    subst h
    omega
  have harith : (a ++ b).length - t.length = a.length + (b.length - t.length) := by
    simp [List.length_append]
    omega
  rw [harith, ← List.drop_drop]
  rw [List.drop_left a b]
  exact h

theorem containsSub_of_parts (a sub c : List Char) :
    containsSub (a ++ sub ++ c) sub = true := by
  unfold containsSub
  apply List.any_eq_true.mpr
  refine ⟨a.length, List.mem_range.mpr ?_, ?_⟩
  · simp [List.length_append]
    omega
  · rw [List.append_assoc, List.drop_left a (sub ++ c)]
    simp [List.take_left]

set_option maxRecDepth 40000

/-- A key whose string value is exactly 16 bytes long (17 stored bytes with
the terminator), has no newline, no comment. -/
def kSixteen : Key :=
  ⟨lit ("user:/a"), lit ("user:/a"), some (lit ("0123456789abcdef")), false, none, false⟩

/-- A key whose string value is 15 bytes long (16 stored bytes with the
terminator), has no newline, no comment. -/
def kFifteen : Key :=
  ⟨lit ("user:/a"), lit ("user:/a"), some (lit ("0123456789abcde")), false, none, false⟩

/-- C1, counterexample.  The key `kSixteen` satisfies every hypothesis of
the claim (value present, string kind, 16 bytes excluding the terminating
marker, no newline), yet `keyToStreamBasename` renders its value as a
`<value><![CDATA[...]]></value>` child element and emits no `value="..."`
attribute: the source compares the stored size, terminator included,
against 16. -/
theorem c1_counterexample :
    keyToStreamBasename kSixteen none 0 {} =
      lit ("<key name=\"user:/a\">\n\n     <value><![CDATA[0123456789abcdef]]></value>\n</key>\n\n") ∧
    containsSub (keyToStreamBasename kSixteen none 0 {}) (lit ("value=\"")) = false ∧
    containsSub (keyToStreamBasename kSixteen none 0 {}) (lit ("<value>")) = true := by
  decide

/-- C1, amended.  For every key whose value is present, of string kind,
with stored byte length at most 16 *including* the terminating marker
(equivalently, logical byte length at most 15), and containing no newline
character, `keyToStreamBasename` renders the value as a `value="..."`
attribute in the opening `<key>` tag and emits no `<value>` child
element. -/
theorem c1_amended (k : Key) (v : List Char) (opts : KDBStream)
    (hd : k.data = some v) (hb : k.binaryMeta = false)
    (hlen : v.length ≤ 15) (hnl : '\n' ∉ v) :
    keyToStreamBasename k none 0 opts =
      (if opts.fullname then lit ("<key name=\"") ++ k.resolvedName ++ lit ("\"")
       else lit ("<key name=\"") ++ k.name ++ lit ("\"")) ++
      ((if opts.condensed then lit (" ") else lit ("\n\t")) ++ lit ("value=\"") ++ v ++ lit ("\"") ++
        (match k.comment with
         | some _ => lit (">\n") ++ keyCloseTail k opts
         | none => lit ("/>") ++ (if opts.condensed then [] else lit ("\n")))) := by
  have hcond : dataSize k ≤ 16 ∧ keyIsString k = true ∧ '\n' ∉ v := by
    refine ⟨?_, ?_, hnl⟩
    · simp only [dataSize, hd, hb]
      simp
      omega
    · simp [keyIsString, hb]
  unfold keyToStreamBasename keyHead keyBody
  rw [hd]
  simp only [if_pos hcond]
  simp

/-- C1, witness for the amended claim at the concrete key `kFifteen`. -/
theorem c1_amended_witness :
    keyToStreamBasename kFifteen none 0 {} =
      lit ("<key name=\"user:/a\"\n\tvalue=\"0123456789abcde\"/>\n") := by
  rw [c1_amended kFifteen (lit ("0123456789abcde")) {} rfl rfl (by decide) (by decide)]
  decide

/-- C5.  For every key whose string value has logical length greater than
16 or contains a newline character, `keyToStreamBasename` renders the value
as a `<value><![CDATA[...]]></value>` child element, the CDATA payload
being exactly the stored value bytes excluding the trailing terminator
(which is what the logical value `v` models: the source writes
`dataSize - 1` bytes of the stored buffer). -/
theorem c5 (k : Key) (v : List Char) (opts : KDBStream)
    (hd : k.data = some v) (hb : k.binaryMeta = false)
    (hlong : 16 < v.length ∨ '\n' ∈ v) :
    keyToStreamBasename k none 0 opts =
      (if opts.fullname then lit ("<key name=\"") ++ k.resolvedName ++ lit ("\"")
       else lit ("<key name=\"") ++ k.name ++ lit ("\"")) ++
      (lit (">") ++ (if opts.condensed then [] else lit ("\n\n     ")) ++ lit ("<value>") ++
        (lit ("<![CDATA[") ++ v ++ lit ("]]>")) ++ lit ("</value>") ++ keyCloseTail k opts) := by
  have hcond : ¬ (dataSize k ≤ 16 ∧ keyIsString k = true ∧ '\n' ∉ v) := by
    rcases hlong with hl | hn
    · intro h
      have := h.1
      simp only [dataSize, hd, hb] at this
      simp at this
      omega
    · intro h
      exact h.2.2 hn
  have hstr : keyIsString k = true := by simp [keyIsString, hb]
  unfold keyToStreamBasename keyHead keyBody
  rw [hd]
  simp only [if_neg hcond, if_pos hstr]
  simp

/-- The key of the documentation example at the head of `stream.c`: a
17-byte string value and a comment. -/
def kSamsung : Key :=
  ⟨lit ("system:/sw/xorg/Monitor/Monitor0/Name"), lit ("system:/sw/xorg/Monitor/Monitor0/Name"),
   some (lit ("Samsung TFT panel")), false, some (lit ("My monitor")), false⟩

/-- C5, witness at the concrete key `kSamsung` (the spec's own example). -/
theorem c5_witness :
    keyToStreamBasename kSamsung none 0 {} =
      lit ("<key name=\"system:/sw/xorg/Monitor/Monitor0/Name\">\n\n     <value><![CDATA[Samsung TFT panel]]></value>\n     <comment><![CDATA[My monitor]]></comment>\n</key>\n\n") := by
  rw [c5 kSamsung (lit ("Samsung TFT panel")) {} rfl rfl (Or.inl (by decide))]
  decide

/-- C6.  Whenever the supplied parent matches the key name byte for byte
over the compared width and, after skipping the run of path separators
following the match, the remaining suffix of the key name is empty,
`keyToStreamBasename` produces exactly the output of full-name mode (the
parent might as well not have been supplied) and the element opens with
`<key name="` — in particular no empty `basename=""` attribute is ever
emitted. -/
theorem c6 (k : Key) (p : List Char) (parentSize : Nat) (opts : KDBStream)
    (hm : cstrTake p (if parentSize ≠ 0 then parentSize else p.length) =
          cstrTake k.name (if parentSize ≠ 0 then parentSize else p.length))
    (he : (k.name.drop (if parentSize ≠ 0 then parentSize else p.length)).dropWhile
            (fun c => c == '/') = []) :
    keyToStreamBasename k (some p) parentSize opts = keyToStreamBasename k none 0 opts ∧
    beginsWith (keyToStreamBasename k (some p) parentSize opts) (lit ("<key name=\"")) := by
  have hhead : keyHead k (some p) parentSize opts = keyHead k none 0 opts := by
    unfold keyHead
    simp only [if_pos hm, he]
    simp
  have hbegin : beginsWith (keyHead k none 0 opts ++ keyBody k opts) (lit ("<key name=\"")) := by
    unfold keyHead
    simp only []
    by_cases hf : opts.fullname
    · simp only [if_pos hf]
      simp only [List.append_assoc]
      exact beginsWith_append _ _
    · simp only [if_neg hf]
      simp only [List.append_assoc]
      exact beginsWith_append _ _
  constructor
  · unfold keyToStreamBasename
    rw [hhead]
  · unfold keyToStreamBasename
    rw [hhead]
    exact hbegin

/-- A key with no value and no comment whose name equals the parent used in
the witness below. -/
def kSame : Key := ⟨lit ("user:/a"), lit ("user:/a"), none, false, none, false⟩

/-- C6, witness: a parent equal to the full key name (empty residual
basename) at the concrete key `kSame`. -/
theorem c6_witness :
    keyToStreamBasename kSame (some (lit ("user:/a"))) 0 {} =
      keyToStreamBasename kSame none 0 {} ∧
    beginsWith (keyToStreamBasename kSame (some (lit ("user:/a"))) 0 {}) (lit ("<key name=\"")) :=
  c6 kSame (lit ("user:/a")) 0 {} (by decide) (by decide)

/-- A key with a one-byte string value and a comment, used to exhibit the
unconditional `">\n"` written between an attribute-form value and a
following comment. -/
def kValCmt : Key :=
  ⟨lit ("user:/a"), lit ("user:/a"), some (lit ("v")), false, some (lit ("c")), false⟩

/-- C3, counterexample.  With CONDENSED set the XML output still contains
newline characters: the empty keyset serializes to exactly the same
`"<keyset>\n</keyset>\n"` as in non-condensed mode (so those cosmetic
newlines of non-condensed mode survive), and a key whose short
attribute-form value is followed by a comment gets the unconditional
`">\n"` of line 211 even in condensed mode. -/
theorem c3_counterexample :
    ksToStream [] { condensed := true } = ksToStream [] {} ∧
    '\n' ∈ ksToStream [] { condensed := true } ∧
    '\n' ∈ keyToStreamBasename kValCmt none 0 { condensed := true } := by
  decide

/-- C3, amended.  CONDENSED suppresses exactly the whitespace the source
guards with the condensed flag, but not the unconditional newlines: for
every key without a comment whose name, resolved name and value contain no
newline byte, condensed `keyToStreamBasename` output is newline-free; yet
every `ksToStream` output — condensed or not — contains a newline (the
root element's opening tag and the closing `</keyset>` are always followed
by one). -/
theorem c3_amended :
    (∀ (k : Key) (par : Option (List Char)) (ps : Nat) (opts : KDBStream),
      opts.condensed = true → k.comment = none →
      '\n' ∉ k.name → '\n' ∉ k.resolvedName →
      (∀ v, k.data = some v → '\n' ∉ v) →
      '\n' ∉ keyToStreamBasename k par ps opts) ∧
    (∀ (ks : List Key) (opts : KDBStream), '\n' ∈ ksToStream ks opts) := by
  constructor
  · intro k par ps opts hc hcom hn hr hv
    have hhead : '\n' ∉ keyHead k par ps opts := by
      unfold keyHead
      have h1 : '\n' ∉ lit ("<key name=\"") := by decide
      have h2 : '\n' ∉ lit ("\"") := by decide
      have h3 : '\n' ∉ lit ("<key basename=\"") := by decide
      cases par with
      | none =>
        by_cases hf : opts.fullname <;>
          simp [hf, List.mem_append, h1, h2, hn, hr]
      | some p =>
        by_cases hm : cstrTake p (if ps ≠ 0 then ps else p.length) =
            cstrTake k.name (if ps ≠ 0 then ps else p.length)
        · simp only [if_pos hm]
          by_cases hrest : (k.name.drop (if ps ≠ 0 then ps else p.length)).dropWhile
              (fun c => c == '/') = []
          · simp only [hrest]
            by_cases hf : opts.fullname <;>
              simp [hf, List.mem_append, h1, h2, hn, hr]
          · simp only [if_pos hrest]
            have hsub : '\n' ∉ (k.name.drop (if ps ≠ 0 then ps else p.length)).dropWhile
                (fun c => c == '/') := by
              intro hmem
              exact hn (((List.dropWhile_sublist _).trans (List.drop_sublist _ _)).subset hmem)
            have hA : lit ("<key basename=\"") ≠ [] := by decide
            rw [if_neg (by simp [hA])]
            simp [List.mem_append, h3, h2]
            simpa using hsub
        · simp only [if_neg hm]
          by_cases hf : opts.fullname <;>
            simp [hf, List.mem_append, h1, h2, hn, hr]
    have hbody : '\n' ∉ keyBody k opts := by
      unfold keyBody
      cases hdata : k.data with
      | none =>
        simp [hcom, hc, List.mem_append]
        decide
      | some v =>
        have hvnl : '\n' ∉ v := hv v hdata
        by_cases hshort : dataSize k ≤ 16 ∧ keyIsString k = true ∧ '\n' ∉ v
        · simp only [if_pos hshort]
          simp [hcom, hc, keyCloseTail, List.mem_append, hvnl]
          decide
        · simp only [if_neg hshort]
          by_cases hstr : keyIsString k = true <;>
            simp [hstr, hcom, hc, keyCloseTail, List.mem_append, hvnl] <;> decide
    unfold keyToStreamBasename
    simp [List.mem_append, hhead, hbody]
  · intro ks opts
    have h : '\n' ∈ lit ("</keyset>\n") := by decide
    unfold ksToStream ksToStreamBody
    simp only [List.mem_append]
    tauto

/-- A comment-free, newline-free key with a short value, for the C3
witness. -/
def kPlain : Key := ⟨lit ("user:/a"), lit ("user:/a"), some (lit ("v")), false, none, false⟩

/-- C3, witness for the amended claim: the condensed rendering of the
comment-free key `kPlain` has no newline, while the condensed rendering of
the empty keyset still has one. -/
theorem c3_amended_witness :
    '\n' ∉ keyToStreamBasename kPlain none 0 { condensed := true } ∧
    '\n' ∈ ksToStream [] { condensed := true } := by
  constructor
  · exact c3_amended.1 kPlain none 0 { condensed := true } rfl rfl (by decide) (by decide)
      (fun v h => by injection h with h2; subst h2; decide)
  · exact c3_amended.2 [] { condensed := true }

/-- A key whose name contains a double quote, which the serializer does
not escape. -/
def kQuote : Key := ⟨lit ("user:/a\"x"), lit ("user:/a\"x"), none, false, none, false⟩

/-- A key whose long string value contains an embedded `]]>`, which the
serializer does not escape inside the CDATA section. -/
def kCdataEvil : Key :=
  ⟨lit ("user:/c"), lit ("user:/c"), some (lit ("AAAAAAAAAAAAAAA]]>B")), false, none, false⟩

/-- C4, counterexample.  Malformed XML can be produced: the serializer
performs no escaping, so for `kQuote` the `name` attribute's value is
terminated by the embedded quote, leaving the stray bytes `x"` inside the
opening `<key>` tag (`<key name="user:/a"x"/>`), and for `kCdataEvil` the
CDATA section is terminated early by the embedded `]]>`, leaving `B]]>` as
raw element content containing the forbidden bare `]]>` sequence.  Neither
output is well-formed XML, refuting the claim's universal guarantee for
these concrete keysets (the empty-keyset instance of the claim does
hold — see the amended theorem). -/
theorem c4_counterexample :
    ksToStream [kQuote] {} = lit ("<keyset>\n<key name=\"user:/a\"x\"/>\n\n</keyset>\n") ∧
    ksToStream [kCdataEvil] {} =
      lit ("<keyset>\n<key name=\"user:/c\">\n\n     <value><![CDATA[AAAAAAAAAAAAAAA]]>B]]></value>\n</key>\n\n</keyset>\n") ∧
    containsSub (ksToStream [kCdataEvil] {}) (lit ("]]>B]]>")) = true := by
  decide

/-- C4, amended.  For every keyset and option combination the output of
`ksToStream` has the structure of a single root `<keyset>` element wrapping
exactly the per-key renderings: some opening fragment, the `">\n"` closing
the root's opening tag, the concatenation of the key elements (full-name
mode, or basename mode against the common parent), and the single closing
`"</keyset>\n"`; the output opens with the XML prolog when HEADER is set
and with `"<keyset"` otherwise, and on the empty keyset with HIER set and
HEADER unset it is exactly `"<keyset>\n</keyset>\n"` (for any condensed
setting — these newlines are unconditional), with no `parent` attribute
and no children.  This root structure is well-formed XML only when the
rendered names, values and comments contain no XML-breaking bytes: no
escaping beyond CDATA wrapping is performed (see the counterexample). -/
theorem c4_amended :
    (∀ (ks : List Key) (opts : KDBStream), ∃ pre : List Char,
      ksToStream ks opts =
        pre ++ lit (">\n") ++ (ks.map (fun k => keyToStream k opts)).flatten ++
          lit ("</keyset>\n") ∨
      ksToStream ks opts =
        pre ++ lit (">\n") ++ (ks.map (fun k =>
          keyToStreamBasename k (some (ksGetCommonParentName ks)) 0 opts)).flatten ++
          lit ("</keyset>\n")) ∧
    (∀ (ks : List Key) (opts : KDBStream),
      beginsWith (ksToStream ks opts)
        (if opts.header = true then lit ("<?xml") else lit ("<keyset")) ∧
      endsWith (ksToStream ks opts) (lit ("</keyset>\n"))) ∧
    (∀ opts : KDBStream, opts.header = false → opts.hier = true →
      ksToStream [] opts = lit ("<keyset>\n</keyset>\n")) := by
  refine ⟨?_, ?_, ?_⟩
  · intro ks opts
    unfold ksToStream ksDup ksToStreamBody
    by_cases hh : opts.hier = true
    · rw [if_pos hh]
      by_cases hcp : ksGetCommonParentName ks = []
      · rw [if_neg (not_not_intro hcp)]
        refine ⟨ksHeadPart opts ks.length, Or.inl ?_⟩
        simp [List.append_assoc]
      · rw [if_pos hcp]
        refine ⟨ksHeadPart opts ks.length ++ lit ("        parent=\"") ++
          ksGetCommonParentName ks ++ lit ("\""), Or.inr ?_⟩
        have hsplit : lit ("\">\n") = lit ("\"") ++ lit (">\n") := by decide
        rw [hsplit]
        simp [List.append_assoc]
    · rw [if_neg hh]
      refine ⟨ksHeadPart opts ks.length, Or.inl ?_⟩
      simp [List.append_assoc]
  · intro ks opts
    constructor
    · by_cases hhd : opts.header = true
      · rw [hhd]
        unfold ksToStream ksDup ksToStreamBody ksHeadPart
        rw [hhd]
        have hsplit : lit ("<?xml version=\"1.0\" encoding=\"UTF-8\"?>") =
            lit ("<?xml") ++ lit (" version=\"1.0\" encoding=\"UTF-8\"?>") := by decide
        simp only [if_true, hsplit, List.append_assoc]
        exact beginsWith_append _ _
      · have hhd2 : opts.header = false := by
          revert hhd
          cases opts.header <;> simp
        rw [hhd2]
        unfold ksToStream ksDup ksToStreamBody ksHeadPart
        rw [hhd2]
        simp only [Bool.false_eq_true, if_false, List.append_assoc]
        exact beginsWith_append _ _
    · unfold ksToStream ksDup ksToStreamBody
      exact endsWith_append _ _
  · intro opts h1 h2
    unfold ksToStream ksDup ksToStreamBody ksHeadPart
    rw [h1, h2]
    simp [ksGetCommonParentName]
    decide

/-- C4, witness for the amended claim at the empty keyset with HIER set and
HEADER unset. -/
theorem c4_amended_witness :
    ksToStream [] { hier := true } = lit ("<keyset>\n</keyset>\n") ∧
    beginsWith (ksToStream [] { hier := true }) (lit ("<keyset")) ∧
    endsWith (ksToStream [] { hier := true }) (lit ("</keyset>\n")) :=
  ⟨c4_amended.2.2 { hier := true } rfl rfl,
   (c4_amended.2.1 [] { hier := true }).1,
   (c4_amended.2.1 [] { hier := true }).2⟩

/-- C2, counterexample.  With both HEADER and XMLHEADERS set, `ksToStream`
emits the XML prolog and the schema attributes on the root element: the
source never consults the XMLHEADERS flag (lines 356-373 only test
`KDB_O_HEADER`), so XMLHEADERS does not suppress prolog or schema
emission. -/
theorem c2_counterexample :
    beginsWith (ksToStream [] { header := true, xmlheaders := true })
      (lit ("<?xml version=\"1.0\" encoding=\"UTF-8\"?>")) ∧
    containsSub (ksToStream [] { header := true, xmlheaders := true })
      (lit ("xsi:schemaLocation=\"https://www.libelektra.org elektra.xsd\"")) = true := by
  decide

/-- C2, amended.  The XMLHEADERS flag has no effect on `ksToStream`: the
output is identical for either value of the flag, and whenever HEADER is
set the XML prolog is emitted, XMLHEADERS notwithstanding. -/
theorem c2_amended :
    (∀ (ks : List Key) (opts : KDBStream) (b : Bool),
      ksToStream ks { opts with xmlheaders := b } = ksToStream ks opts) ∧
    (∀ (ks : List Key) (opts : KDBStream), opts.header = true →
      beginsWith (ksToStream ks opts) (lit ("<?xml version=\"1.0\" encoding=\"UTF-8\"?>"))) := by
  constructor
  · intro ks opts b
    cases opts
    rfl
  · intro ks opts hh
    unfold ksToStream ksDup ksToStreamBody ksHeadPart
    rw [hh]
    simp only [if_true, List.append_assoc]
    exact beginsWith_append _ _

/-- C2, witness for the amended claim: the empty keyset with HEADER and
XMLHEADERS both set streams exactly as with HEADER alone, and the output
opens with the XML prolog. -/
theorem c2_amended_witness :
    ksToStream [] { header := true, xmlheaders := true } = ksToStream [] { header := true } ∧
    beginsWith (ksToStream [] { header := true, xmlheaders := true })
      (lit ("<?xml version=\"1.0\" encoding=\"UTF-8\"?>")) :=
  ⟨c2_amended.1 [] { header := true } true,
   c2_amended.2 [] { header := true, xmlheaders := true } rfl⟩

/-- C7.  With the show-flags option set and every needed allocation
succeeding, the `keyOutput` line closes with `Flags: ` followed by `b` if
the key is binary, then `s` if the key is string, then `s` again if the
key needs synchronization, concatenated in that fixed order with no
de-duplication; in particular a binary key needing sync yields the flags
string `bs`, and a string key needing sync yields `ss`. -/
theorem c7 (k : Key) (opts : KDBStream) (al : AllocPlan)
    (hsf : opts.showflags = true) (h1 : al.nameAlloc = true)
    (h2 : al.valueAlloc = true) (h3 : al.commentAlloc = true) :
    endsWith (keyOutput k opts al).2
      ((if opts.showmeta = false then lit (" ") else []) ++ lit ("Flags: ") ++
       (if keyIsBinary k = true then lit ("b") else []) ++
       (if keyIsString k = true then lit ("s") else []) ++
       (if keyNeedSync k = true then lit ("s") else []) ++ lit ("\n")) ∧
    (keyIsBinary k = true → keyNeedSync k = true →
      (if keyIsBinary k = true then lit ("b") else []) ++
      (if keyIsString k = true then lit ("s") else []) ++
      (if keyNeedSync k = true then lit ("s") else []) = lit ("bs")) ∧
    (keyIsString k = true → keyNeedSync k = true →
      (if keyIsBinary k = true then lit ("b") else []) ++
      (if keyIsString k = true then lit ("s") else []) ++
      (if keyNeedSync k = true then lit ("s") else []) = lit ("ss")) := by
  refine ⟨?_, ?_, ?_⟩
  · unfold keyOutput
    rw [if_neg (by simp [h1]), if_neg (by simp [h2]), if_neg (by simp [h3])]
    simp only [hsf, if_true]
    simp only [List.append_assoc]
    exact endsWith_prepend _ _ _ (endsWith_prepend _ _ _ (endsWith_prepend _ _ _
      (endsWith_prepend _ _ _ (endsWith_refl _))))
  · intro hb hy
    have hs : keyIsString k = false := by
      simp [keyIsString, keyIsBinary] at hb ⊢
      simp [hb]
    rw [hb, hy, hs]
    decide
  · intro hs hy
    have hb : keyIsBinary k = false := by
      simp [keyIsString, keyIsBinary] at hs ⊢
      simp [hs]
    rw [hb, hy, hs]
    decide

/-- A binary key marked as needing synchronization. -/
def kBinSync : Key := ⟨lit ("user:/b"), lit ("user:/b"), some (lit ("x")), true, none, true⟩

/-- A string key marked as needing synchronization. -/
def kStrSync : Key := ⟨lit ("user:/b"), lit ("user:/b"), some (lit ("x")), false, none, true⟩

/-- C7, witness: the flag codes at the concrete keys `kBinSync` (`bs`) and
`kStrSync` (`ss`). -/
theorem c7_witness :
    endsWith (keyOutput kBinSync { showflags := true } {}).2 (lit (" Flags: bs\n")) ∧
    endsWith (keyOutput kStrSync { showflags := true } {}).2 (lit (" Flags: ss\n")) := by
  have hb := c7 kBinSync { showflags := true } {} rfl rfl rfl rfl
  have hs := c7 kStrSync { showflags := true } {} rfl rfl rfl rfl
  exact ⟨by revert hb; decide, by revert hs; decide⟩

/-- C8.  `keyOutput` returns the error value `-1` exactly when a needed
temporary-buffer allocation fails — needed meaning: the name buffer when
the name size exceeds 1, the value buffer when the show-value option is set
and the value size exceeds 1, the comment buffer when the show-meta gate is
set and the comment size exceeds 1 — and returns the success value `1`
exactly when every needed allocation succeeds. -/
theorem c8 (k : Key) (opts : KDBStream) (al : AllocPlan) :
    ((keyOutput k opts al).1 = -1 ↔
      ((keyGetNameSize k > 1 ∧ al.nameAlloc = false) ∨
       (opts.keyValue = true ∧ dataSize k > 1 ∧ al.valueAlloc = false) ∨
       (opts.keyMeta = true ∧ keyGetCommentSize k > 1 ∧ al.commentAlloc = false))) ∧
    ((keyOutput k opts al).1 = 1 ↔
      ¬ ((keyGetNameSize k > 1 ∧ al.nameAlloc = false) ∨
         (opts.keyValue = true ∧ dataSize k > 1 ∧ al.valueAlloc = false) ∨
         (opts.keyMeta = true ∧ keyGetCommentSize k > 1 ∧ al.commentAlloc = false))) := by
  simp only [keyOutput]
  by_cases hA : keyGetNameSize k > 1 ∧ al.nameAlloc = false
  · rw [if_pos hA]
    exact ⟨⟨fun _ => Or.inl hA, fun _ => rfl⟩,
           ⟨fun h => absurd h (by decide : ¬((-1 : Int) = 1)), fun hn => absurd (Or.inl hA) hn⟩⟩
  · rw [if_neg hA]
    by_cases hB : opts.keyValue = true ∧ dataSize k > 1 ∧ al.valueAlloc = false
    · rw [if_pos hB]
      exact ⟨⟨fun _ => Or.inr (Or.inl hB), fun _ => rfl⟩,
             ⟨fun h => absurd h (by decide : ¬((-1 : Int) = 1)), fun hn => absurd (Or.inr (Or.inl hB)) hn⟩⟩
    · rw [if_neg hB]
      by_cases hC : opts.keyMeta = true ∧ keyGetCommentSize k > 1 ∧ al.commentAlloc = false
      · rw [if_pos hC]
        exact ⟨⟨fun _ => Or.inr (Or.inr hC), fun _ => rfl⟩,
               ⟨fun h => absurd h (by decide : ¬((-1 : Int) = 1)), fun hn => absurd (Or.inr (Or.inr hC)) hn⟩⟩
      · rw [if_neg hC]
        exact ⟨⟨fun h => absurd h (by decide : ¬((1 : Int) = -1)),
                fun hd => absurd ((hd.resolve_left hA).resolve_left hB) hC⟩,
               ⟨fun _ => fun hd => absurd ((hd.resolve_left hA).resolve_left hB) hC,
                fun _ => rfl⟩⟩

/-- C9.  Neither `ksToStream` nor `ksOutput` mutates the input keyset:
with the keyset objects made explicit, both take the snapshot at the start,
work only on it, release it before returning (`snap = none` afterwards),
leave the input observable by the caller unchanged, and produce exactly the
output of the pure functions. -/
theorem c9 :
    ∀ (ks : List Key) (opts : KDBStream) (als : Nat → AllocPlan),
      (ksToStreamSt ks opts).2.input = ks ∧
      (ksToStreamSt ks opts).2.snap = none ∧
      (ksToStreamSt ks opts).1 = ksToStream ks opts ∧
      (ksOutputSt ks opts als).2.input = ks ∧
      (ksOutputSt ks opts als).2.snap = none ∧
      (ksOutputSt ks opts als).1 = ksOutput ks opts als :=
  fun _ _ _ => ⟨rfl, rfl, rfl, rfl, rfl, rfl⟩

/-- A key whose name-buffer allocation is made to fail in the C10
theorem. -/
def kTen : Key := ⟨lit ("user:/a"), lit ("user:/a"), none, false, none, false⟩

/-- The allocation plan whose name allocation fails. -/
def alFail : AllocPlan := ⟨false, true, true⟩

/-- C10.  `ksOutput` returns 1 unconditionally, for every keyset, option
set and allocation outcome — even when `keyOutput` reports the allocation
failure `-1` for a key of the set, as it does for `kTen` under `alFail`. -/
theorem c10 :
    (∀ (ks : List Key) (opts : KDBStream) (als : Nat → AllocPlan),
      (ksOutput ks opts als).1 = 1) ∧
    (keyOutput kTen {} alFail).1 = -1 ∧
    (ksOutput [kTen] {} (fun _ => alFail)).1 = 1 :=
  ⟨fun _ _ _ => rfl, by decide, rfl⟩

end XmlStream
